import Mathlib

/-!
# ozbargain-scraper: extraction and notification

A shallow embedding of `helpers/helpers.go` (`ParseDeals`,
`FormatAndPostToDiscord`) and `handlers/handlers.go` (`ScrapeTopDeals`,
`ScrapeNewDeals`), together with the parts of the Go standard library they
call (`strings.TrimSpace`, `strings.TrimPrefix`, `strconv.Atoi`).

Go strings are modelled as Lean strings, i.e. sequences of Unicode code
points (the text handed out by the HTML parser is valid UTF-8).  `strconv`
walks over bytes: a code point outside ASCII is encoded in bytes from 0x80 up,
none of which is a sign or a digit, so its tests are made on code points here.
Go `int` is the 64-bit signed integer, modelled as `Int` with the range checks
of `strconv` made explicit.

Effects are made explicit: a run takes a `World` (the environment variable, the
answers of `http.Get` and `http.Post`) and returns the trace of its log lines
and outbound calls.
-/

namespace OzBargain

/-! ## Go standard library -/

/-- Go `unicode.IsSpace`: the white space code points trimmed by `strings.TrimSpace`. -/
def isSpace (c : Char) : Bool :=
  let n := c.toNat
  n == 0x09 || n == 0x0A || n == 0x0B || n == 0x0C || n == 0x0D || n == 0x20 ||
  n == 0x85 || n == 0xA0 || n == 0x1680 || (0x2000 ≤ n && n ≤ 0x200A) ||
  n == 0x2028 || n == 0x2029 || n == 0x202F || n == 0x205F || n == 0x3000

/-- Go `strings.TrimSpace`: drop leading and trailing white space. -/
def TrimSpace (s : String) : String :=
  ⟨((s.data.dropWhile isSpace).reverse.dropWhile isSpace).reverse⟩

/-- Go `strings.TrimPrefix`: `s` without the leading `pre`, or `s` itself when
`s` does not start with `pre`. -/
def TrimPrefix (s pre : String) : String :=
  if pre.data.isPrefixOf s.data then ⟨s.data.drop pre.data.length⟩ else s

/-- Go `len(s)`: the number of bytes of the UTF-8 encoding. -/
def byteLen : List Char → Nat
  | [] => 0
  | c :: cs => c.utf8Size + byteLen cs

/-- The two error kinds of `strconv.NumError`. -/
inductive NumError where
  | ErrSyntax
  | ErrRange
  deriving DecidableEq, Repr

/-- Go `strconv.IntSize` on a 64-bit platform. -/
def intSize : Nat := 64

/-- The byte test `'0' <= c && c <= '9'` of `strconv`. -/
def isDigit (c : Char) : Bool := 48 ≤ c.toNat && c.toNat ≤ 57

/-- The digit loop of `strconv.ParseUint(s, 10, 64)`, with the `uint64`
accumulator `n`; `cutoff = maxUint64/10 + 1`.  A byte that is not a decimal
digit is a syntax error (in base 10 a letter is one as well); an overflow of
`n*10` or of `n*10 + d` is a range error, reported with `maxVal`. -/
def ParseUintLoop : List Char → Nat → Nat × Option NumError
  | [], n => (n, none)
  | c :: cs, n =>
    if isDigit c then
      let d := c.toNat - 48
      if n ≥ (2 ^ 64 - 1) / 10 + 1 then (2 ^ 64 - 1, some .ErrRange)
      else
        let n10 := (n * 10) % 2 ^ 64
        let n1 := (n10 + d) % 2 ^ 64
        if n1 < n10 ∨ n1 > 2 ^ 64 - 1 then (2 ^ 64 - 1, some .ErrRange)
        else ParseUintLoop cs n1
    else (0, some .ErrSyntax)

/-- Go `strconv.ParseUint(s, 10, 64)`. -/
def ParseUint (s : List Char) : Nat × Option NumError :=
  if s = [] then (0, some .ErrSyntax) else ParseUintLoop s 0

/-- Go `strconv.ParseInt(s, 10, 0)`: an optional sign, then `ParseUint`, then
the range check against `1 << (IntSize-1)`. -/
def ParseInt (s : List Char) : Int × Option NumError :=
  match s with
  | [] => (0, some .ErrSyntax)
  | c :: cs =>
    let neg : Bool := c == '-'
    let s1 := if c == '+' || c == '-' then cs else c :: cs
    let r := ParseUint s1
    if r.2 = some .ErrSyntax then (0, r.2)
    else
      let cutoff : Nat := 2 ^ (intSize - 1)
      if !neg && r.1 ≥ cutoff then ((cutoff : Int) - 1, some .ErrRange)
      else if neg && r.1 > cutoff then (-(cutoff : Int), some .ErrRange)
      else (if neg then -(r.1 : Int) else (r.1 : Int), none)

/-- The digit loop of the fast path of `strconv.Atoi`: `ch -= '0'`, fail when
`ch > 9`, else `n = n*10 + int(ch)`. -/
def AtoiFastLoop : List Char → Nat → Option Nat
  | [], n => some n
  | c :: cs, n => if isDigit c then AtoiFastLoop cs (n * 10 + (c.toNat - 48)) else none

/-- Go `strconv.Atoi`: the fast path for strings of 1 to 18 bytes, and
`ParseInt(s, 10, 0)` otherwise. -/
def Atoi (s : String) : Int × Option NumError :=
  let sLen := byteLen s.data
  if 0 < sLen ∧ sLen < 19 then
    match s.data with
    | [] => (0, some .ErrSyntax)
    | c :: cs =>
      let signed : Bool := c == '-' || c == '+'
      let s1 := if signed then cs else c :: cs
      if signed && s1.isEmpty then (0, some .ErrSyntax)
      else
        match AtoiFastLoop s1 0 with
        | none => (0, some .ErrSyntax)
        | some n => (if c == '-' then -(n : Int) else (n : Int), none)
  else ParseInt s.data

/-- Go `fmt.Sprintf("%d", n)` for an `int`. -/
def fmtInt (n : Int) : String := toString n

/-! ## helpers/helpers.go: data model -/

structure Deal where
  Title : String
  URL : String
  Timestamp : String
  Votes : Int
  Category : String
  deriving DecidableEq, Repr

structure DiscordEmbedField where
  Name : String
  Value : String
  Inline : Bool
  deriving DecidableEq, Repr

structure DiscordEmbedFooter where
  Text : String
  deriving DecidableEq, Repr

structure DiscordEmbed where
  Title : String
  URL : String
  Description : String
  Color : Int
  Fields : List DiscordEmbedField
  Footer : Option DiscordEmbedFooter
  deriving DecidableEq, Repr

structure DiscordWebhookPayload where
  Content : String
  Embeds : List DiscordEmbed
  deriving DecidableEq, Repr

def UrlPrefix : String := "https://www.ozbargain.com.au"

/-! ## The parsed page, as goquery presents it -/

/-- One element matched by `div.title a` inside a list item: its text content
and its `href` attribute, when it has one. -/
structure Anchor where
  text : String
  href : Option String
  deriving DecidableEq, Repr

/-- One element matched by `doc.Find("ul.ozblist li")`, given by what the
three inner queries of `ParseDeals` select in it, in document order:
the `div.title a` elements, and the text contents of the `ul.meta li.timestamp`
and of the `ul.meta li.votes` elements. -/
structure Item where
  titleLinks : List Anchor
  timestamps : List String
  votes : List String
  deriving DecidableEq, Repr

/-- goquery `Selection.Text()`: the combined text contents of the matched
elements. -/
def selText (texts : List String) : String :=
  texts.foldl (fun acc t => acc ++ t) ""

/-- goquery `Selection.AttrOr("href", dflt)`: the attribute of the first
matched element, or the default when the selection is empty or the element has
no such attribute. -/
def attrOrHref (sel : List Anchor) (dflt : String) : String :=
  match sel with
  | [] => dflt
  | a :: _ => match a.href with
    | some v => v
    | none => dflt

/-- What `ParseDeals` gets out of the response: `io.ReadAll` may fail,
`goquery.NewDocumentFromReader` may fail, and otherwise
`doc.Find("ul.ozblist li")` yields the matched items in document order. -/
inductive Response where
  | readFails (err : String)
  | parseFails (err : String)
  | document (items : List Item)
  deriving DecidableEq, Repr

/-! ## helpers/helpers.go: ParseDeals -/

/-- Lines 76-83 of `ParseDeals`: the vote count assigned from the trimmed vote
text; `deal.Votes` keeps its zero value unless `Atoi` succeeds. -/
def parseVotes (votesText : String) : Int :=
  if votesText ≠ "" then
    let votesText := TrimPrefix votesText "+"
    let r := Atoi votesText
    if r.2 = none then r.1 else 0
  else 0

/-- Lines 69-83 of `ParseDeals`: the `deal` built for one item. -/
def buildDeal (category : String) (s : Item) : Deal :=
  { Title := TrimSpace (selText (s.titleLinks.map (·.text)))
    URL := UrlPrefix ++ attrOrHref s.titleLinks ""
    Timestamp := TrimSpace (selText s.timestamps)
    Category := category
    Votes := parseVotes (TrimSpace (selText s.votes)) }

/-- The callback passed to `Each` in `ParseDeals` (lines 68-89): build the
deal and append it when `deal.Title != "" && deal.URL != ""`. -/
def eachItem (category : String) (deals : List Deal) (s : Item) : List Deal :=
  let deal := buildDeal category s
  if deal.Title ≠ "" ∧ deal.URL ≠ "" then deals ++ [deal] else deals

/-- `ParseDeals(resp, category)`: the pair `(deals, err)` it returns. -/
def ParseDeals (resp : Response) (category : String) : List Deal × Option String :=
  match resp with
  | .readFails err => ([], some err)
  | .parseFails err => ([], some err)
  | .document items => (items.foldl (eachItem category) [], none)

/-! ## Effects -/

/-- The response of the webhook endpoint: its status code and what
`io.ReadAll(response.Body)` returns. -/
structure HttpResponse where
  StatusCode : Int
  Body : String
  ReadErr : Option String
  deriving DecidableEq, Repr

/-- What a run does to the outside: a line written by `log`, a call of
`http.Get`, a call of `http.Post`.  The body of a post is recorded as the
payload handed to `json.Marshal` (which cannot fail on a value made of strings,
integers, booleans and slices of these). -/
inductive Event where
  | log (line : String)
  | get (url : String)
  | post (url : String) (contentType : String) (payload : DiscordWebhookPayload)
  deriving DecidableEq, Repr

/-- The environment of a run: the process environment, and what `http.Get` and
`http.Post` answer. -/
structure World where
  getenv : String → String
  httpGet : String → Except String Response
  httpPost : String → String → DiscordWebhookPayload → Except String HttpResponse

/-- The outcome of a call: the events in the order they happened, and the
run-time panic that unwound to the caller, if any. -/
structure Run where
  trace : List Event
  panic : Option String
  deriving DecidableEq, Repr

/-- Is the event an outbound `http.Post`? -/
def Event.isPost : Event → Bool
  | .post _ _ _ => true
  | _ => false

/-- Is the event an `http.Get` of the given url? -/
def Event.isGetOf (url : String) : Event → Bool
  | .get u => u == url
  | _ => false

/-- The lines logged during a run. -/
def logLines : List Event → List String
  | [] => []
  | .log l :: es => l :: logLines es
  | _ :: es => logLines es

/-! ## helpers/helpers.go: FormatAndPostToDiscord -/

/-- Lines 108-110: the loop writing one line per deal into `linksBuilder`;
`i` is the loop index, `b` the builder's content. -/
def linksLoop : Nat → List Deal → String → String
  | _, [], b => b
  | i, deal :: rest, b =>
    linksLoop (i + 1) rest
      (b ++ (fmtInt (i + 1) ++ ". [" ++ deal.Title ++ "](" ++ deal.URL ++ ") *(" ++
        fmtInt deal.Votes ++ " votes)*\n"))

/-- Lines 104-127: the payload of table mode; `deals[0]` is the first deal. -/
def tablePayload (deals : List Deal) (first : Deal) : DiscordWebhookPayload :=
  let linksBuilder := linksLoop 0 deals "\n**🔗 Links:**\n"
  let description := "" ++ linksBuilder
  let embed : DiscordEmbed :=
    { Title := "🔥 " ++ first.Category ++ " Deals (" ++ fmtInt deals.length ++ " found)"
      URL := ""
      Description := description
      Color := 0x00A86B
      Fields := []
      Footer := some { Text := "OzBargain Deal Alert" } }
  { Content := "", Embeds := [embed] }

/-- Lines 134-139: the colour chosen from the vote count. -/
def voteColor (votes : Int) : Int :=
  if votes ≥ 200 then 0x00FF00
  else if votes ≥ 100 then 0xFFA500
  else 0xFF0000

/-- Lines 132-163: one iteration of the detail loop, appending the deal's embed. -/
def detailStep (embeds : List DiscordEmbed) (deal : Deal) : List DiscordEmbed :=
  let color := voteColor deal.Votes
  let embed : DiscordEmbed :=
    { Title := deal.Title
      URL := deal.URL
      Description := ""
      Color := color
      Fields :=
        [ { Name := "👍 Votes", Value := fmtInt deal.Votes, Inline := true },
          { Name := "🕒 Posted", Value := deal.Timestamp, Inline := true } ]
      Footer := some { Text := "OzBargain Deal Alert - " ++ deal.Category } }
  embeds ++ [embed]

/-- Lines 128-167: the payload of detail mode. -/
def detailPayload (deals : List Deal) : DiscordWebhookPayload :=
  { Content := "", Embeds := deals.foldl detailStep [] }

/-- Lines 176-193: the post and the report on its result. -/
def deliver (w : World) (url : String) (payload : DiscordWebhookPayload) (n : Nat) :
    List Event :=
  let sent := Event.post url "application/json" payload
  match w.httpPost url "application/json" payload with
  | .error err => [sent, .log ("Error posting to Discord: " ++ err)]
  | .ok response =>
    match response.ReadErr with
    | some err => [sent, .log ("Error reading response body: " ++ err)]
    | none =>
      if response.StatusCode ≠ 204 then
        [sent, .log ("Discord webhook returned status " ++ fmtInt response.StatusCode ++
          ": " ++ response.Body)]
      else
        [sent, .log ("Successfully posted " ++ fmtInt n ++ " deals to Discord")]

/-- `FormatAndPostToDiscord(deals, asTable)`. -/
def FormatAndPostToDiscord (w : World) (deals : List Deal) (asTable : Bool) : Run :=
  let discordWebhookURL := w.getenv "DISCORD_WEBHOOK_URL"
  if deals.length = 0 then
    { trace := [.log "No deals to post"], panic := none }
  else if asTable then
    match deals[0]? with
    | none => { trace := [], panic := some "index out of range [0]" }
    | some first =>
      { trace := deliver w discordWebhookURL (tablePayload deals first) deals.length
        panic := none }
  else
    { trace := deliver w discordWebhookURL (detailPayload deals) deals.length
      panic := none }

/-! ## handlers/handlers.go -/

def ComputingTopDealsURL : String :=
  "https://www.ozbargain.com.au/ozbapi/block/ozbdeal_top?dur=30&tid=12"
def ComputingNewDealsURL : String :=
  "https://www.ozbargain.com.au/ozbapi/block/ozbdeal_new?tid=12&f=1"
def ElectronicsTopDealsURL : String :=
  "https://www.ozbargain.com.au/ozbapi/block/ozbdeal_top?dur=30&tid=13"
def ElectronicsNewDealsURL : String :=
  "https://www.ozbargain.com.au/ozbapi/block/ozbdeal_new?tid=13&f=1"

/-- `ScrapeTopDeals()`: the Computing feed, then the Electronics feed; every error
is logged and followed by `return`. -/
def ScrapeTopDeals (w : World) : Run :=
  let t0 := [Event.log "Scraping top deals..."]
  match w.httpGet ComputingTopDealsURL with
  | .error err =>
    { trace := t0 ++ [.get ComputingTopDealsURL, .log ("Error scraping top deals: " ++ err)]
      panic := none }
  | .ok compResp =>
    let t1 := t0 ++ [.get ComputingTopDealsURL]
    match ParseDeals compResp "Computing Top Deals" with
    | (_, some err) => { trace := t1 ++ [.log ("Error parsing deals: " ++ err)], panic := none }
    | (deals, none) =>
      let posted := FormatAndPostToDiscord w deals false
      let t2 := t1 ++ [.log ("Found " ++ fmtInt deals.length ++ " deals")] ++ posted.trace
      match posted.panic with
      | some p => { trace := t2, panic := some p }
      | none =>
        match w.httpGet ElectronicsTopDealsURL with
        | .error err =>
          { trace := t2 ++
              [.get ElectronicsTopDealsURL, .log ("Error scraping top deals: " ++ err)]
            panic := none }
        | .ok elecResp =>
          let t3 := t2 ++ [.get ElectronicsTopDealsURL]
          match ParseDeals elecResp "Electronics Top Deals" with
          | (_, some err) =>
            { trace := t3 ++ [.log ("Error parsing deals: " ++ err)], panic := none }
          | (deals, none) =>
            let posted := FormatAndPostToDiscord w deals false
            { trace := t3 ++ [.log ("Found " ++ fmtInt deals.length ++ " deals")] ++ posted.trace
              panic := posted.panic }

/-- `ScrapeNewDeals()`: the Computing feed, then the Electronics feed; every error
is logged and followed by `return`. -/
def ScrapeNewDeals (w : World) : Run :=
  let t0 := [Event.log "Scraping new deals..."]
  match w.httpGet ComputingNewDealsURL with
  | .error err =>
    { trace := t0 ++ [.get ComputingNewDealsURL, .log ("Error scraping new deals: " ++ err)]
      panic := none }
  | .ok compResp =>
    let t1 := t0 ++ [.get ComputingNewDealsURL]
    match ParseDeals compResp "Computing New Deals" with
    | (_, some err) => { trace := t1 ++ [.log ("Error parsing deals: " ++ err)], panic := none }
    | (deals, none) =>
      let posted := FormatAndPostToDiscord w deals true
      let t2 := t1 ++ [.log ("Found " ++ fmtInt deals.length ++ " deals")] ++ posted.trace
      match posted.panic with
      | some p => { trace := t2, panic := some p }
      | none =>
        match w.httpGet ElectronicsNewDealsURL with
        | .error err =>
          { trace := t2 ++
              [.get ElectronicsNewDealsURL, .log ("Error scraping new deals: " ++ err)]
            panic := none }
        | .ok elecResp =>
          let t3 := t2 ++ [.get ElectronicsNewDealsURL]
          match ParseDeals elecResp "Electronics New Deals" with
          | (_, some err) =>
            { trace := t3 ++ [.log ("Error parsing deals: " ++ err)], panic := none }
          | (deals, none) =>
            let posted := FormatAndPostToDiscord w deals true
            { trace := t3 ++ [.log ("Found " ++ fmtInt deals.length ++ " deals")] ++ posted.trace
              panic := posted.panic }

/-! ## Reference readings used in the statements -/

/-- The number denoted by a sequence of decimal digits, continuing from `n`. -/
def decimalValueFrom (n : Nat) (ds : List Char) : Nat :=
  ds.foldl (fun n c => n * 10 + (c.toNat - 48)) n

/-- The number denoted by a sequence of decimal digits. -/
def decimalValue (ds : List Char) : Nat := decimalValueFrom 0 ds

/-- One or more decimal digits. -/
def isDecimal (ds : List Char) : Bool := !ds.isEmpty && ds.all isDigit

/-- An optional sign and one or more decimal digits denoting a number in the
range of the 64-bit `int`: the number, or `none` for any other text. -/
def signedDecimal (u : List Char) : Option Int :=
  match u with
  | [] => none
  | c :: cs =>
    if c = '-' then
      if isDecimal cs = true ∧ decimalValue cs ≤ 2 ^ 63 then some (-(decimalValue cs : Int))
      else none
    else if c = '+' then
      if isDecimal cs = true ∧ decimalValue cs < 2 ^ 63 then some (decimalValue cs : Int)
      else none
    else
      if isDecimal (c :: cs) = true ∧ decimalValue (c :: cs) < 2 ^ 63 then
        some (decimalValue (c :: cs) : Int)
      else none

/-- The vote count as the specification words it: an optional single leading
"+" followed by decimal digits gives the integer the digits denote, every other
text gives 0. -/
def votesAsClaimed (t : String) : Int :=
  let ds := if t.data.head? = some '+' then t.data.tail else t.data
  if isDecimal ds then (decimalValue ds : Int) else 0

/-- The payloads of the outbound posts of a trace, in order. -/
def postedPayloads : List Event → List DiscordWebhookPayload
  | [] => []
  | .post _ _ p :: es => p :: postedPayloads es
  | _ :: es => postedPayloads es

/-- The numbered lines of a table-mode description for the deals that follow
`i` deals already listed. -/
def numberedLines : Nat → List Deal → List String
  | _, [] => []
  | i, deal :: rest =>
    (fmtInt (i + 1) ++ ". [" ++ deal.Title ++ "](" ++ deal.URL ++ ") *(" ++
      fmtInt deal.Votes ++ " votes)*\n") :: numberedLines (i + 1) rest

/-- A world for the concrete runs: the webhook is configured, every feed has
one deal with 120 votes, and the endpoint answers 204 with an empty body. -/
def quietWorld : World where
  getenv := fun _ => "https://discord.example/api/webhooks/1"
  httpGet := fun _ => .ok (.document [⟨[⟨"Deal A", some "/node/1"⟩], ["1 h"], ["+120"]⟩])
  httpPost := fun _ _ _ => .ok ⟨204, "", none⟩

/-- Four deals of one feed, with vote counts at the colour boundaries. -/
def boundaryDeals : List Deal :=
  [ ⟨"Deal A", "https://www.ozbargain.com.au/node/1", "1 h", 99, "Computing Top Deals"⟩,
    ⟨"Deal B", "https://www.ozbargain.com.au/node/2", "2 h", 100, "Computing Top Deals"⟩,
    ⟨"Deal C", "https://www.ozbargain.com.au/node/3", "3 h", 199, "Computing Top Deals"⟩,
    ⟨"Deal D", "https://www.ozbargain.com.au/node/4", "4 h", 200, "Computing Top Deals"⟩ ]

/-- A world where the two Computing feeds cannot be fetched and the Electronics
feeds can. -/
def computingDownWorld : World where
  getenv := fun _ => "https://discord.example/api/webhooks/1"
  httpGet := fun url =>
    if url = ComputingTopDealsURL ∨ url = ComputingNewDealsURL then .error "connection refused"
    else .ok (.document [⟨[⟨"Deal E", some "/node/9"⟩], ["1 h"], ["+120"]⟩])
  httpPost := fun _ _ _ => .ok ⟨204, "", none⟩

/-- A world where the two Computing feeds are fetched but their body cannot be
read, and the Electronics feeds are fine. -/
def computingUnreadableWorld : World where
  getenv := fun _ => "https://discord.example/api/webhooks/1"
  httpGet := fun url =>
    if url = ComputingTopDealsURL ∨ url = ComputingNewDealsURL then
      .ok (.readFails "unexpected EOF")
    else .ok (.document [⟨[⟨"Deal E", some "/node/9"⟩], ["1 h"], ["+120"]⟩])
  httpPost := fun _ _ _ => .ok ⟨204, "", none⟩

/-- A world where the two Electronics feeds cannot be fetched and the Computing
feeds can. -/
def electronicsDownWorld : World where
  getenv := fun _ => "https://discord.example/api/webhooks/1"
  httpGet := fun url =>
    if url = ElectronicsTopDealsURL ∨ url = ElectronicsNewDealsURL then
      .error "connection refused"
    else .ok (.document [⟨[⟨"Deal A", some "/node/1"⟩], ["1 h"], ["+120"]⟩])
  httpPost := fun _ _ _ => .ok ⟨204, "", none⟩

/-- A world whose webhook endpoint answers 200 with a body. -/
def okStatusWorld : World where
  getenv := fun _ => "https://discord.example/api/webhooks/1"
  httpGet := fun _ => .ok (.document [])
  httpPost := fun _ _ _ => .ok ⟨200, "ok", none⟩

/-! ## strconv: what the loops compute -/

theorem le_decimalValueFrom (ds : List Char) : ∀ n, n ≤ decimalValueFrom n ds := by
  induction ds with
  | nil => intro n; exact Nat.le_refl n
  | cons c cs ih =>
    intro n
    have h := ih (n * 10 + (c.toNat - 48))
    simp only [decimalValueFrom, List.foldl_cons] at h ⊢
    omega

theorem decimalValueFrom_cons (c : Char) (cs : List Char) (n : Nat) :
    decimalValueFrom n (c :: cs) = decimalValueFrom (n * 10 + (c.toNat - 48)) cs := rfl

theorem isDigit_bounds {c : Char} (h : isDigit c = true) : 48 ≤ c.toNat ∧ c.toNat ≤ 57 := by
  simpa [isDigit] using h

theorem ParseUintLoop_digits (ds : List Char) (hd : ds.all isDigit = true) :
    ∀ n, n < 2 ^ 64 →
      ParseUintLoop ds n =
        if decimalValueFrom n ds < 2 ^ 64 then (decimalValueFrom n ds, none)
        else (2 ^ 64 - 1, some .ErrRange) := by
  induction ds with
  | nil =>
    intro n hn
    norm_num at hn
    simp [ParseUintLoop, decimalValueFrom, hn]
  | cons c cs ih =>
    intro n hn
    simp only [List.all_cons, Bool.and_eq_true] at hd
    obtain ⟨hc, hcs⟩ := hd
    have hb := isDigit_bounds hc
    have hmono := le_decimalValueFrom cs (n * 10 + (c.toNat - 48))
    rw [decimalValueFrom_cons]
    simp only [ParseUintLoop, hc, if_true]
    norm_num at hn ⊢
    by_cases h1 : 1844674407370955162 ≤ n
    · rw [if_pos h1, if_neg (by omega)]
    · rw [if_neg h1]
      by_cases h2 : n * 10 + (c.toNat - 48) < 18446744073709551616
      · have e1 : n * 10 % 18446744073709551616 = n * 10 := Nat.mod_eq_of_lt (by omega)
        have e2 : (n * 10 + (c.toNat - 48)) % 18446744073709551616 = n * 10 + (c.toNat - 48) :=
          Nat.mod_eq_of_lt h2
        rw [e1, e2, if_neg (by omega)]
        have := ih hcs (n * 10 + (c.toNat - 48)) (by norm_num; exact h2)
        norm_num at this
        exact this
      · have e1 : n * 10 % 18446744073709551616 = n * 10 := Nat.mod_eq_of_lt (by omega)
        rw [e1, if_pos (by omega), if_neg (by omega)]

theorem ParseUintLoop_nondigits (ds : List Char) (hd : ds.all isDigit = false) :
    ∀ n, n < 2 ^ 64 →
      (ParseUintLoop ds n).2 = some .ErrSyntax ∨
        ParseUintLoop ds n = (2 ^ 64 - 1, some .ErrRange) := by
  induction ds with
  | nil => simp at hd
  | cons c cs ih =>
    intro n hn
    by_cases hc : isDigit c = true
    · have hcs : cs.all isDigit = false := by
        simpa [List.all_cons, hc] using hd
      simp only [ParseUintLoop, hc, if_true]
      by_cases h1 : n ≥ (2 ^ 64 - 1) / 10 + 1
      · rw [if_pos h1]; exact Or.inr rfl
      · rw [if_neg h1]
        by_cases h2 : (n * 10 % 2 ^ 64 + (c.toNat - 48)) % 2 ^ 64 < n * 10 % 2 ^ 64 ∨
            (n * 10 % 2 ^ 64 + (c.toNat - 48)) % 2 ^ 64 > 2 ^ 64 - 1
        · rw [if_pos h2]; exact Or.inr rfl
        · rw [if_neg h2]
          exact ih hcs _ (Nat.mod_lt _ (by norm_num))
    · simp [ParseUintLoop, hc]

theorem ParseUint_spec (s : List Char) :
    (isDecimal s = true ∧ decimalValue s < 2 ^ 64 ∧ ParseUint s = (decimalValue s, none)) ∨
    ((isDecimal s = false ∨ 2 ^ 64 ≤ decimalValue s) ∧
      ((ParseUint s).2 = some .ErrSyntax ∨ ParseUint s = (2 ^ 64 - 1, some .ErrRange))) := by
  by_cases hs : s = []
  · subst hs
    right
    simp [isDecimal, ParseUint]
  · have hne : s.isEmpty = false := by
      cases s with
      | nil => exact absurd rfl hs
      | cons _ _ => rfl
    by_cases hd : s.all isDigit = true
    · have hloop := ParseUintLoop_digits s hd 0 (by norm_num)
      by_cases hv : decimalValue s < 2 ^ 64
      · left
        refine ⟨by simp [isDecimal, hne, hd], hv, ?_⟩
        have hv2 : decimalValueFrom 0 s < 2 ^ 64 := hv
        simp only [ParseUint, hs, if_false, hloop, if_pos hv2]
        rfl
      · right
        refine ⟨Or.inr (Nat.le_of_not_lt hv), Or.inr ?_⟩
        have hv2 : ¬ decimalValueFrom 0 s < 2 ^ 64 := hv
        simp only [ParseUint, hs, if_false, hloop, if_neg hv2]
    · right
      have hd2 : s.all isDigit = false := by simpa using hd
      refine ⟨Or.inl (by simp [isDecimal, hne, hd2]), ?_⟩
      have := ParseUintLoop_nondigits s hd2 0 (by norm_num)
      simpa only [ParseUint, hs, if_false] using this

theorem ParseInt_spec (s : List Char) :
    (∀ v, signedDecimal s = some v → ParseInt s = (v, none)) ∧
    (signedDecimal s = none → (ParseInt s).2 ≠ none) := by
  cases s with
  | nil => simp [signedDecimal, ParseInt]
  | cons c cs =>
    by_cases hm : c = '-'
    · subst hm
      have e1 : (('-' : Char) == '+') = false := by decide
      rcases ParseUint_spec cs with ⟨h1, h2, h3⟩ | ⟨h1, h2⟩
      · simp only [signedDecimal, ParseInt, h1, h3, intSize, e1, beq_self_eq_true, if_true,
          Bool.or_true, Bool.false_or, true_and]
        norm_num
        by_cases h4 : decimalValue cs ≤ 9223372036854775808
        · simp [h4]
        · have h5 : 9223372036854775808 < decimalValue cs := by omega
          simp [h4, h5]
      · have hnone : signedDecimal ('-' :: cs) = none := by
          simp only [signedDecimal, if_true]
          rw [if_neg]
          rintro ⟨h3, h4⟩
          rcases h1 with h1 | h1
          · rw [h1] at h3; cases h3
          · norm_num at h1 h4; omega
        simp only [hnone, false_implies, implies_true, true_and, forall_true_left]
        rcases h2 with h2 | h2
        · simp [ParseInt, e1, h2]
        · simp [ParseInt, e1, h2, intSize]
    · by_cases hp : c = '+'
      · subst hp
        have e1 : (('+' : Char) == '-') = false := by decide
        rcases ParseUint_spec cs with ⟨h1, h2, h3⟩ | ⟨h1, h2⟩
        · simp only [signedDecimal, ParseInt, h1, h3, intSize, e1, beq_self_eq_true, if_true,
            Bool.true_or, true_and, hm, if_false]
          norm_num
          by_cases h4 : decimalValue cs < 9223372036854775808
          · have h5 : ¬ 9223372036854775808 ≤ decimalValue cs := by omega
            simp [h4, h5]
          · have h5 : 9223372036854775808 ≤ decimalValue cs := by omega
            simp [h4, h5]
        · have hnone : signedDecimal ('+' :: cs) = none := by
            simp only [signedDecimal, hm, if_false, if_true]
            rw [if_neg]
            rintro ⟨h3, h4⟩
            rcases h1 with h1 | h1
            · rw [h1] at h3; cases h3
            · norm_num at h1 h4; omega
          simp only [hnone, false_implies, implies_true, true_and, forall_true_left]
          rcases h2 with h2 | h2
          · simp [ParseInt, e1, h2]
          · simp [ParseInt, e1, h2, intSize]
      · have e1 : (c == '-') = false := by simpa using hm
        have e2 : (c == '+') = false := by simpa using hp
        rcases ParseUint_spec (c :: cs) with ⟨h1, h2, h3⟩ | ⟨h1, h2⟩
        · simp only [signedDecimal, ParseInt, h1, h3, intSize, e1, e2, if_true,
            Bool.or_self, true_and, hm, hp, if_false]
          norm_num
          by_cases h4 : decimalValue (c :: cs) < 9223372036854775808
          · have h5 : ¬ 9223372036854775808 ≤ decimalValue (c :: cs) := by omega
            simp [h3, h4, h5]
          · have h5 : 9223372036854775808 ≤ decimalValue (c :: cs) := by omega
            simp [h3, h4, h5]
        · have hnone : signedDecimal (c :: cs) = none := by
            simp only [signedDecimal, hm, hp, if_false]
            rw [if_neg]
            rintro ⟨h3, h4⟩
            rcases h1 with h1 | h1
            · rw [h1] at h3; cases h3
            · norm_num at h1 h4; omega
          simp only [hnone, false_implies, implies_true, true_and, forall_true_left]
          rcases h2 with h2 | h2
          · simp [ParseInt, e1, e2, h2]
          · simp [ParseInt, e1, e2, h2, intSize]

theorem length_le_byteLen (cs : List Char) : cs.length ≤ byteLen cs := by
  induction cs with
  | nil => simp [byteLen]
  | cons c cs ih =>
    have := Char.utf8Size_pos c
    simp only [byteLen, List.length_cons]
    omega

theorem ParseUintLoop_short (cs : List Char) :
    ∀ n, (n + 1) * 10 ^ cs.length ≤ 2 ^ 64 →
      ParseUintLoop cs n =
        match AtoiFastLoop cs n with
        | none => (0, some .ErrSyntax)
        | some v => (v, none) := by
  induction cs with
  | nil => intro n _; simp [ParseUintLoop, AtoiFastLoop]
  | cons c cs ih =>
    intro n hn
    by_cases hc : isDigit c = true
    · have hb := isDigit_bounds hc
      have hpos : 1 ≤ 10 ^ cs.length := Nat.one_le_pow _ _ (by norm_num)
      have h10 : (n + 1) * 10 ≤ 2 ^ 64 := by
        calc (n + 1) * 10 = (n + 1) * 10 * 1 := by ring
          _ ≤ (n + 1) * 10 * 10 ^ cs.length := Nat.mul_le_mul_left _ hpos
          _ = (n + 1) * 10 ^ (c :: cs).length := by rw [List.length_cons]; ring
          _ ≤ 2 ^ 64 := hn
      have hstep : (n * 10 + (c.toNat - 48) + 1) * 10 ^ cs.length ≤ 2 ^ 64 := by
        calc (n * 10 + (c.toNat - 48) + 1) * 10 ^ cs.length
            ≤ ((n + 1) * 10) * 10 ^ cs.length := Nat.mul_le_mul_right _ (by omega)
          _ = (n + 1) * 10 ^ (c :: cs).length := by rw [List.length_cons]; ring
          _ ≤ 2 ^ 64 := hn
      have hrec := ih (n * 10 + (c.toNat - 48)) hstep
      simp only [ParseUintLoop, AtoiFastLoop, hc, if_true]
      norm_num at h10 ⊢
      have e1 : n * 10 % 18446744073709551616 = n * 10 := Nat.mod_eq_of_lt (by omega)
      have e2 : (n * 10 + (c.toNat - 48)) % 18446744073709551616 = n * 10 + (c.toNat - 48) :=
        Nat.mod_eq_of_lt (by omega)
      rw [if_neg (by omega), e1, e2, if_neg (by omega)]
      exact hrec
    · simp [ParseUintLoop, AtoiFastLoop, hc]

theorem AtoiFastLoop_lt (cs : List Char) :
    ∀ n v, AtoiFastLoop cs n = some v → v < (n + 1) * 10 ^ cs.length := by
  induction cs with
  | nil =>
    intro n v h
    simp only [AtoiFastLoop, Option.some.injEq] at h
    simp
    omega
  | cons c cs ih =>
    intro n v h
    by_cases hc : isDigit c = true
    · have hb := isDigit_bounds hc
      simp only [AtoiFastLoop, hc, if_true] at h
      have h1 := ih _ _ h
      calc v < (n * 10 + (c.toNat - 48) + 1) * 10 ^ cs.length := h1
        _ ≤ ((n + 1) * 10) * 10 ^ cs.length := Nat.mul_le_mul_right _ (by omega)
        _ = (n + 1) * 10 ^ (c :: cs).length := by rw [List.length_cons]; ring
    · simp [AtoiFastLoop, hc] at h

/-- On at most 18 characters `ParseUint` agrees with the fast loop of `Atoi`
and stays below `10 ^ 18`. -/
theorem ParseUint_short (cs : List Char) (hne : cs ≠ []) (hlen : cs.length ≤ 18) :
    (AtoiFastLoop cs 0 = none ∧ ParseUint cs = (0, some .ErrSyntax)) ∨
    (∃ v, AtoiFastLoop cs 0 = some v ∧ ParseUint cs = (v, none) ∧ v < 10 ^ 18) := by
  have hp : (10 : Nat) ^ cs.length ≤ 10 ^ 18 := Nat.pow_le_pow_right (by norm_num) hlen
  have h64 : (0 + 1) * 10 ^ cs.length ≤ 2 ^ 64 := by
    have : (10 : Nat) ^ 18 ≤ 2 ^ 64 := by norm_num
    omega
  have h := ParseUintLoop_short cs 0 h64
  cases hf : AtoiFastLoop cs 0 with
  | none =>
    left
    rw [hf] at h
    exact ⟨rfl, by simp only [ParseUint, hne, if_false, h]⟩
  | some v =>
    right
    rw [hf] at h
    have hv := AtoiFastLoop_lt cs 0 v hf
    exact ⟨v, rfl, by simp only [ParseUint, hne, if_false, h], by omega⟩

/-- The fast path of `Atoi` returns what `ParseInt(s, 10, 0)` returns. -/
theorem Atoi_eq_ParseInt (s : String) : Atoi s = ParseInt s.data := by
  unfold Atoi
  by_cases hfast : 0 < byteLen s.data ∧ byteLen s.data < 19
  · simp only [hfast, and_self, if_true]
    have hlen := length_le_byteLen s.data
    cases hs : s.data with
    | nil => simp [ParseInt]
    | cons c cs =>
      rw [hs] at hlen
      have hfast2 := hfast
      rw [hs] at hfast2
      simp only [List.length_cons] at hlen
      by_cases hm : c = '-'
      · subst hm
        by_cases hcs : cs = []
        · subst hcs
          simp [ParseInt, ParseUint]
        · rcases ParseUint_short cs hcs (by omega) with ⟨h1, h2⟩ | ⟨v, h1, h2, h3⟩
          · simp [ParseInt, h1, h2, hcs]
          · have h4 : ¬ 9223372036854775808 < v := by norm_num at h3; omega
            simp [ParseInt, h1, h2, hcs, intSize, h4]
      · by_cases hp : c = '+'
        · subst hp
          have e1 : (('+' : Char) == '-') = false := by decide
          by_cases hcs : cs = []
          · subst hcs
            simp [ParseInt, ParseUint]
          · rcases ParseUint_short cs hcs (by omega) with ⟨h1, h2⟩ | ⟨v, h1, h2, h3⟩
            · simp [ParseInt, h1, h2, hcs, e1]
            · have h4 : ¬ 9223372036854775808 ≤ v := by norm_num at h3; omega
              simp [ParseInt, h1, h2, hcs, intSize, h4, e1]
        · have e1 : (c == '-') = false := by simpa using hm
          have e2 : (c == '+') = false := by simpa using hp
          rcases ParseUint_short (c :: cs) (List.cons_ne_nil _ _) (by simpa using (by omega : cs.length + 1 ≤ 18))
            with ⟨h1, h2⟩ | ⟨v, h1, h2, h3⟩
          · simp [ParseInt, h1, h2, e1, e2]
          · have h4 : ¬ 9223372036854775808 ≤ v := by norm_num at h3; omega
            simp [ParseInt, h1, h2, intSize, h4, e1, e2]
  · rw [if_neg hfast]

theorem isDecimal_head {ds : List Char} (h : isDecimal ds = true) :
    ds.head? ≠ some '+' ∧ ds.head? ≠ some '-' := by
  cases ds with
  | nil => simp
  | cons c cs =>
    have hc : isDigit c = true := by
      simp only [isDecimal, List.isEmpty_cons, Bool.not_false, List.all_cons, Bool.true_and,
        Bool.and_eq_true] at h
      exact h.1
    have hb := isDigit_bounds hc
    constructor
    · intro he
      simp only [List.head?_cons, Option.some.injEq] at he
      subst he
      revert hb
      decide
    · intro he
      simp only [List.head?_cons, Option.some.injEq] at he
      subst he
      revert hb
      decide

theorem signedDecimal_of_isDecimal {ds : List Char} (h : isDecimal ds = true)
    (hv : decimalValue ds < 2 ^ 63) : signedDecimal ds = some (decimalValue ds : Int) := by
  have hh := isDecimal_head h
  cases ds with
  | nil => simp [isDecimal] at h
  | cons c cs =>
    have hm : c ≠ '-' := by simpa using hh.2
    have hp : c ≠ '+' := by simpa using hh.1
    simp only [signedDecimal, hm, hp, if_false, h, hv, and_self, if_true]

/-! ## fmt: the decimal rendering -/

theorem decimalValueFrom_append (a : Nat) (xs ys : List Char) :
    decimalValueFrom a (xs ++ ys) = decimalValueFrom (decimalValueFrom a xs) ys := by
  simp [decimalValueFrom, List.foldl_append]

theorem digitChar_digit (d : Nat) (h : d < 10) :
    isDigit (Nat.digitChar d) = true ∧ (Nat.digitChar d).toNat - 48 = d := by
  interval_cases d <;> decide

theorem toDigitsCore_decimal (fuel : Nat) :
    ∀ n ds, n < fuel →
      ∃ pre, Nat.toDigitsCore 10 fuel n ds = pre ++ ds ∧ pre ≠ [] ∧
        pre.all isDigit = true ∧ decimalValueFrom 0 pre = n := by
  induction fuel with
  | zero => intro n ds h; omega
  | succ fuel ih =>
    intro n ds h
    have hd := digitChar_digit (n % 10) (Nat.mod_lt _ (by norm_num))
    by_cases h0 : n / 10 = 0
    · refine ⟨[Nat.digitChar (n % 10)], ?_, by simp, by simp [hd.1], ?_⟩
      · simp [Nat.toDigitsCore, h0]
      · simp only [decimalValueFrom, List.foldl_cons, List.foldl_nil, hd.2]
        omega
    · obtain ⟨pre, h1, _, h3, h4⟩ := ih (n / 10) (Nat.digitChar (n % 10) :: ds) (by omega)
      refine ⟨pre ++ [Nat.digitChar (n % 10)], ?_, by simp, ?_, ?_⟩
      · simp [Nat.toDigitsCore, h0, h1]
      · simp [List.all_append, h3, hd.1]
      · rw [decimalValueFrom_append, h4]
        simp only [decimalValueFrom, List.foldl_cons, List.foldl_nil, hd.2]
        omega

/-- The rendering of a natural number by `%d` is one or more decimal digits
denoting that number. -/
theorem fmtInt_natCast (n : Nat) :
    isDecimal (fmtInt (n : Int)).data = true ∧ decimalValue (fmtInt (n : Int)).data = n := by
  obtain ⟨pre, h1, h2, h3, h4⟩ := toDigitsCore_decimal (n + 1) n [] (by omega)
  have hdata : (fmtInt (n : Int)).data = pre := by
    have : (fmtInt (n : Int)).data = Nat.toDigitsCore 10 (n + 1) n [] := rfl
    rw [this, h1, List.append_nil]
  rw [hdata]
  refine ⟨?_, h4⟩
  cases pre with
  | nil => exact absurd rfl h2
  | cons c cs => simpa [isDecimal] using h3

/-- The rendering of a negative number by `%d` is "-" and the rendering of its
absolute value. -/
theorem fmtInt_negSucc (n : Nat) :
    (fmtInt (Int.negSucc n)).data = '-' :: (fmtInt ((n + 1 : Nat) : Int)).data := rfl

/-- What `%d` writes for an `int` is read back by `strconv.Atoi`. -/
theorem Atoi_fmtInt (v : Int) (hlo : -(2 : Int) ^ 63 ≤ v) (hhi : v < 2 ^ 63) :
    Atoi (fmtInt v) = (v, none) := by
  rw [Atoi_eq_ParseInt]
  cases v with
  | ofNat n =>
    obtain ⟨h1, h2⟩ := fmtInt_natCast n
    have hn : n < 2 ^ 63 := by
      have : ((n : Nat) : Int) < 2 ^ 63 := hhi
      exact_mod_cast this
    have hs := signedDecimal_of_isDecimal h1 (by rw [h2]; exact hn)
    rw [h2] at hs
    exact (ParseInt_spec _).1 _ hs
  | negSucc n =>
    obtain ⟨h1, h2⟩ := fmtInt_natCast (n + 1)
    have hn : n + 1 ≤ 2 ^ 63 := by
      have : -(2 : Int) ^ 63 ≤ Int.negSucc n := hlo
      rw [Int.negSucc_eq] at this
      have h3 : ((n : Int) + 1) ≤ 2 ^ 63 := by linarith
      exact_mod_cast h3
    have hs : signedDecimal (fmtInt (Int.negSucc n)).data = some (Int.negSucc n) := by
      rw [fmtInt_negSucc]
      simp only [signedDecimal, if_true, h1, h2, hn, and_self]
      rfl
    exact (ParseInt_spec _).1 _ hs

/-! ## ParseDeals: what the loop computes -/

theorem TrimPrefix_plus_data (t : String) :
    (TrimPrefix t "+").data = if t.data.head? = some '+' then t.data.tail else t.data := by
  cases ht : t.data with
  | nil => simp [TrimPrefix, ht, List.isPrefixOf]
  | cons c cs =>
    by_cases hc : c = '+'
    · subst hc
      simp [TrimPrefix, ht, List.isPrefixOf]
    · have e : (('+' : Char) == c) = false := by
        simpa using fun h : '+' = c => hc h.symm
      simp [TrimPrefix, ht, List.isPrefixOf, hc, e]

theorem parseVotes_eq (t : String) :
    parseVotes t =
      (signedDecimal (if t.data.head? = some '+' then t.data.tail else t.data)).getD 0 := by
  unfold parseVotes
  by_cases ht : t = ""
  · subst ht
    simp [signedDecimal]
  · simp only [ne_eq, ht, not_false_eq_true, if_true]
    rw [Atoi_eq_ParseInt, TrimPrefix_plus_data]
    have h := ParseInt_spec (if t.data.head? = some '+' then t.data.tail else t.data)
    cases hsd : signedDecimal (if t.data.head? = some '+' then t.data.tail else t.data) with
    | none =>
      have := h.2 hsd
      simp [this]
    | some v =>
      have := h.1 v hsd
      simp [this]

theorem append_ne_empty_left (a b : String) (ha : a ≠ "") : a ++ b ≠ "" := by
  intro h
  apply ha
  have hd : (a ++ b).data = [] := by rw [h]
  rw [String.data_append] at hd
  exact String.ext (by simpa using (List.append_eq_nil.mp hd).1)

theorem buildDeal_URL_ne_empty (category : String) (s : Item) :
    (buildDeal category s).URL ≠ "" :=
  append_ne_empty_left _ _ (by decide)

theorem eachItem_eq (category : String) (deals : List Deal) (s : Item) :
    eachItem category deals s =
      if (buildDeal category s).Title ≠ "" then deals ++ [buildDeal category s] else deals := by
  simp only [eachItem, buildDeal_URL_ne_empty, ne_eq, not_false_eq_true, and_true]

theorem foldl_eachItem (category : String) (items : List Item) :
    ∀ acc, items.foldl (eachItem category) acc =
      acc ++ (items.map (buildDeal category)).filter (fun d => decide (d.Title ≠ "")) := by
  induction items with
  | nil => intro acc; simp
  | cons s rest ih =>
    intro acc
    rw [List.foldl_cons, ih, eachItem_eq]
    by_cases ht : (buildDeal category s).Title = ""
    · simp [ht]
    · simp [ht]

theorem ParseDeals_document (items : List Item) (category : String) :
    ParseDeals (.document items) category =
      ((items.map (buildDeal category)).filter (fun d => decide (d.Title ≠ "")), none) := by
  simp [ParseDeals, foldl_eachItem]

theorem signedDecimal_nonneg (u : List Char) (h : u.head? ≠ some '-') :
    0 ≤ (signedDecimal u).getD 0 := by
  cases u with
  | nil => simp [signedDecimal]
  | cons c cs =>
    have hm : c ≠ '-' := by simpa using h
    simp only [signedDecimal, hm, if_false]
    split_ifs <;> simp

/-! ## ParseDeals: the claims -/

/-- The half of C1 that the code satisfies: a list item whose title text is
empty after trimming is left out, and the result is the result for the page
without that item. -/
theorem ParseDeals_drops_untitled (before after : List Item) (s : Item) (category : String)
    (h : TrimSpace (selText (s.titleLinks.map (·.text))) = "") :
    ParseDeals (.document (before ++ s :: after)) category =
      ParseDeals (.document (before ++ after)) category := by
  have ht : (buildDeal category s).Title = "" := h
  simp [ParseDeals_document, ht]

/-- The general form of the defect behind C1: the test `deal.URL != ""` is made
on the prefixed url, so an item with a non-empty title is appended whatever its
link is. -/
theorem ParseDeals_keeps_titled (before after : List Item) (s : Item) (category : String)
    (h : TrimSpace (selText (s.titleLinks.map (·.text))) ≠ "") :
    (ParseDeals (.document (before ++ s :: after)) category).1 =
      (ParseDeals (.document before) category).1 ++ buildDeal category s ::
        (ParseDeals (.document after) category).1 := by
  have ht : (buildDeal category s).Title ≠ "" := h
  simp [ParseDeals_document, ht]

/-- C1 (code defect): an item with a title but no link is not excluded.  On a
page of two items, the second with a `div.title a` element that has no `href`
(and likewise with an empty `href`), `ParseDeals` returns two deals, the second
with the bare site origin as its url; the page without that item gives one deal. -/
theorem ParseDeals_keeps_item_without_link :
    ParseDeals (.document
        [⟨[⟨"Deal A", some "/node/1"⟩], ["1 h"], ["+10"]⟩,
         ⟨[⟨"Deal B", none⟩], ["2 h"], ["+20"]⟩]) "Computing Top Deals" =
      ([⟨"Deal A", "https://www.ozbargain.com.au/node/1", "1 h", 10, "Computing Top Deals"⟩,
        ⟨"Deal B", "https://www.ozbargain.com.au", "2 h", 20, "Computing Top Deals"⟩], none) ∧
    ParseDeals (.document
        [⟨[⟨"Deal A", some "/node/1"⟩], ["1 h"], ["+10"]⟩,
         ⟨[⟨"Deal B", some ""⟩], ["2 h"], ["+20"]⟩]) "Computing Top Deals" =
      ([⟨"Deal A", "https://www.ozbargain.com.au/node/1", "1 h", 10, "Computing Top Deals"⟩,
        ⟨"Deal B", "https://www.ozbargain.com.au", "2 h", 20, "Computing Top Deals"⟩], none) ∧
    ParseDeals (.document
        [⟨[⟨"Deal A", some "/node/1"⟩], ["1 h"], ["+10"]⟩]) "Computing Top Deals" =
      ([⟨"Deal A", "https://www.ozbargain.com.au/node/1", "1 h", 10, "Computing Top Deals"⟩],
        none) := by
  decide

/-- C2: on a page where every matched list item has a non-empty trimmed title
and a non-empty link, `ParseDeals` succeeds and returns exactly one deal per
item, in document order (the deal built from the k-th item is the k-th deal),
each with the supplied category. -/
theorem ParseDeals_one_deal_per_item (items : List Item) (category : String)
    (h : ∀ s ∈ items, TrimSpace (selText (s.titleLinks.map (·.text))) ≠ "" ∧
      attrOrHref s.titleLinks "" ≠ "") :
    ParseDeals (.document items) category = (items.map (buildDeal category), none) ∧
    (ParseDeals (.document items) category).1.length = items.length ∧
    (∀ k (hk : k < items.length),
      (ParseDeals (.document items) category).1[k]? = some (buildDeal category (items.get ⟨k, hk⟩))) ∧
    ∀ d ∈ (ParseDeals (.document items) category).1, d.Category = category := by
  have hall : (items.map (buildDeal category)).filter (fun d => decide (d.Title ≠ "")) =
      items.map (buildDeal category) := by
    rw [List.filter_eq_self]
    intro d hd
    obtain ⟨s, hs, rfl⟩ := List.mem_map.mp hd
    have ht : (buildDeal category s).Title ≠ "" := (h s hs).1
    simpa using ht
  have heq : ParseDeals (.document items) category = (items.map (buildDeal category), none) := by
    rw [ParseDeals_document, hall]
  refine ⟨heq, ?_, ?_, ?_⟩
  · simp [heq]
  · intro k hk
    simp [heq, hk]
  · intro d hd
    rw [heq] at hd
    obtain ⟨s, _, rfl⟩ := List.mem_map.mp hd
    rfl

theorem ParseDeals_one_deal_per_item_witness :
    (∀ s ∈ [(⟨[⟨" Deal A ", some "/node/1"⟩], ["1 h"], ["+10"]⟩ : Item),
            ⟨[⟨"Deal B", some "/node/2"⟩], [], []⟩],
      TrimSpace (selText (s.titleLinks.map (·.text))) ≠ "" ∧ attrOrHref s.titleLinks "" ≠ "") ∧
    ParseDeals (.document
        [⟨[⟨" Deal A ", some "/node/1"⟩], ["1 h"], ["+10"]⟩,
         ⟨[⟨"Deal B", some "/node/2"⟩], [], []⟩]) "Electronics New Deals" =
      ([⟨"Deal A", "https://www.ozbargain.com.au/node/1", "1 h", 10, "Electronics New Deals"⟩,
        ⟨"Deal B", "https://www.ozbargain.com.au/node/2", "", 0, "Electronics New Deals"⟩],
        none) :=
  ⟨by decide,
   (ParseDeals_one_deal_per_item
      [⟨[⟨" Deal A ", some "/node/1"⟩], ["1 h"], ["+10"]⟩,
       ⟨[⟨"Deal B", some "/node/2"⟩], [], []⟩] "Electronics New Deals" (by decide)).1.trans
     (by decide)⟩

/-- C3 (counterexample): the vote text "-5" gives -5 and "++5" gives 5, where
the claim has 0; the digits "9223372036854775808" give 0, where the claim has
the integer they denote. -/
theorem parseVotes_not_as_claimed :
    (parseVotes "-5" = -5 ∧ votesAsClaimed "-5" = 0) ∧
    (parseVotes "++5" = 5 ∧ votesAsClaimed "++5" = 0) ∧
    (parseVotes "9223372036854775808" = 0 ∧
      votesAsClaimed "9223372036854775808" = 9223372036854775808) := by
  decide

/-- C3 (amended): the vote count assigned from the trimmed vote text `t` is read
off `t` without one leading "+": when that is an optional sign ("+" or "-")
followed by one or more decimal digits denoting an integer of the 64-bit range,
the count is that integer, and for every other text, the empty one included,
it is 0.  In particular one or more digits below 2^63, with or without a
leading "+", give the integer they denote ("+341" gives 341, "250" gives 250).
The vote text never makes `ParseDeals` fail. -/
theorem parseVotes_amended :
    (∀ category s, (buildDeal category s).Votes = parseVotes (TrimSpace (selText s.votes))) ∧
    (∀ t : String, parseVotes t =
      (signedDecimal (if t.data.head? = some '+' then t.data.tail else t.data)).getD 0) ∧
    (∀ ds : List Char, isDecimal ds = true → decimalValue ds < 2 ^ 63 →
      parseVotes ⟨ds⟩ = (decimalValue ds : Int) ∧
      parseVotes ⟨'+' :: ds⟩ = (decimalValue ds : Int)) ∧
    parseVotes "+341" = 341 ∧ parseVotes "250" = 250 ∧ parseVotes "" = 0 ∧
    (∀ items category, (ParseDeals (.document items) category).2 = none) := by
  refine ⟨fun _ _ => rfl, parseVotes_eq, ?_, by decide, by decide, by decide, ?_⟩
  · intro ds hd hv
    have hh := isDecimal_head hd
    constructor
    · rw [parseVotes_eq]
      simp only [hh.1, if_false, signedDecimal_of_isDecimal hd hv, Option.getD_some]
    · rw [parseVotes_eq]
      simp only [List.head?_cons, if_true, List.tail_cons, signedDecimal_of_isDecimal hd hv,
        Option.getD_some]
  · intro items category
    rw [ParseDeals_document]

/-- C4 (counterexample): the vote texts "-5" and "+-5" give deals with -5 votes. -/
theorem ParseDeals_negative_votes :
    (ParseDeals (.document
        [⟨[⟨"Deal A", some "/node/1"⟩], ["1 h"], ["-5"]⟩,
         ⟨[⟨"Deal B", some "/node/2"⟩], ["2 h"], [" +-5 "]⟩]) "Computing Top Deals").1.map
      (fun d => d.Votes) = [-5, -5] := by
  decide

/-- C4 (amended): every deal returned by `ParseDeals` has `Votes >= 0` on a page
where no item's trimmed vote text, taken without one leading "+", begins with
"-". -/
theorem ParseDeals_votes_nonneg (items : List Item) (category : String)
    (h : ∀ s ∈ items,
      (TrimPrefix (TrimSpace (selText s.votes)) "+").data.head? ≠ some '-') :
    ∀ d ∈ (ParseDeals (.document items) category).1, 0 ≤ d.Votes := by
  intro d hd
  rw [ParseDeals_document] at hd
  obtain ⟨s, hs, rfl⟩ := List.mem_map.mp (List.mem_filter.mp hd).1
  have h1 := h s hs
  rw [TrimPrefix_plus_data] at h1
  have h2 : (buildDeal category s).Votes = parseVotes (TrimSpace (selText s.votes)) := rfl
  rw [h2, parseVotes_eq]
  exact signedDecimal_nonneg _ h1

theorem ParseDeals_votes_nonneg_witness :
    (∀ s ∈ [(⟨[⟨"Deal A", some "/node/1"⟩], ["1 h"], [" +341 "]⟩ : Item),
            ⟨[⟨"Deal B", some "/node/2"⟩], ["2 h"], ["n/a"]⟩],
      (TrimPrefix (TrimSpace (selText s.votes)) "+").data.head? ≠ some '-') ∧
    ∀ d ∈ (ParseDeals (.document
        [⟨[⟨"Deal A", some "/node/1"⟩], ["1 h"], [" +341 "]⟩,
         ⟨[⟨"Deal B", some "/node/2"⟩], ["2 h"], ["n/a"]⟩]) "Computing Top Deals").1,
      0 ≤ d.Votes :=
  ⟨by decide, ParseDeals_votes_nonneg _ _ (by decide)⟩

/-! ## FormatAndPostToDiscord: what the loops compute -/

theorem foldl_append_eq (l : List String) :
    ∀ acc : String, l.foldl (fun r s => r ++ s) acc = acc ++ String.join l := by
  induction l with
  | nil => intro acc; simp [String.join]
  | cons a l ih =>
    intro acc
    have h1 := ih (acc ++ a)
    have h2 := ih ("" ++ a)
    simp only [String.join, List.foldl_cons] at h1 h2 ⊢
    rw [h1, h2, String.empty_append, String.append_assoc]

theorem join_cons (a : String) (l : List String) : String.join (a :: l) = a ++ String.join l := by
  have h := foldl_append_eq l ("" ++ a)
  simp only [String.empty_append] at h
  simpa [String.join] using h

theorem linksLoop_eq (deals : List Deal) :
    ∀ i b, linksLoop i deals b = b ++ String.join (numberedLines i deals) := by
  induction deals with
  | nil => intro i b; simp [linksLoop, numberedLines, String.join]
  | cons d rest ih =>
    intro i b
    simp only [linksLoop, numberedLines, ih, join_cons, String.append_assoc]

theorem numberedLines_length (deals : List Deal) :
    ∀ i, (numberedLines i deals).length = deals.length := by
  induction deals with
  | nil => intro i; rfl
  | cons d rest ih => intro i; simp [numberedLines, ih]

theorem numberedLines_get (deals : List Deal) :
    ∀ i k (hk : k < deals.length),
      (numberedLines i deals)[k]? =
        some (fmtInt (((i + k : Nat) : Int) + 1) ++ ". [" ++ (deals.get ⟨k, hk⟩).Title ++ "](" ++
          (deals.get ⟨k, hk⟩).URL ++ ") *(" ++ fmtInt (deals.get ⟨k, hk⟩).Votes ++ " votes)*\n") := by
  induction deals with
  | nil => intro i k hk; simp at hk
  | cons d rest ih =>
    intro i k hk
    cases k with
    | zero => simp [numberedLines]
    | succ k =>
      have hk2 : k < rest.length := by simpa using hk
      have := ih (i + 1) k hk2
      simp only [numberedLines, List.getElem?_cons_succ, this, List.get_cons_succ]
      have e : i + 1 + k = i + (k + 1) := by omega
      rw [e]

theorem foldl_detailStep (deals : List Deal) :
    ∀ acc, deals.foldl detailStep acc =
      acc ++ deals.map (fun d =>
        ({ Title := d.Title
           URL := d.URL
           Description := ""
           Color := voteColor d.Votes
           Fields :=
             [ { Name := "👍 Votes", Value := fmtInt d.Votes, Inline := true },
               { Name := "🕒 Posted", Value := d.Timestamp, Inline := true } ]
           Footer := some { Text := "OzBargain Deal Alert - " ++ d.Category } } :
          DiscordEmbed)) := by
  induction deals with
  | nil => intro acc; simp
  | cons d rest ih =>
    intro acc
    rw [List.foldl_cons, ih]
    simp [detailStep]

theorem deliver_shape (w : World) (url : String) (payload : DiscordWebhookPayload) (n : Nat) :
    ∃ line, deliver w url payload n = [.post url "application/json" payload, .log line] := by
  simp only [deliver]
  split
  · exact ⟨_, rfl⟩
  · split
    · exact ⟨_, rfl⟩
    · split_ifs
      · exact ⟨_, rfl⟩
      · exact ⟨_, rfl⟩

theorem postedPayloads_deliver (w : World) (url : String) (payload : DiscordWebhookPayload)
    (n : Nat) : postedPayloads (deliver w url payload n) = [payload] := by
  obtain ⟨line, h⟩ := deliver_shape w url payload n
  rw [h]
  rfl

theorem FormatAndPostToDiscord_cons (w : World) (d : Deal) (ds : List Deal) (asTable : Bool) :
    FormatAndPostToDiscord w (d :: ds) asTable =
      { trace := deliver w (w.getenv "DISCORD_WEBHOOK_URL")
          (if asTable then tablePayload (d :: ds) d else detailPayload (d :: ds))
          (d :: ds).length
        panic := none } := by
  cases asTable <;> simp [FormatAndPostToDiscord]

/-! ## FormatAndPostToDiscord: the claims -/

/-- C5: for a non-empty list of deals, table mode posts one payload with exactly
one embed; its title is "🔥 {Category of deals[0]} Deals ({len(deals)} found)"
and its description is the "Links" heading followed by exactly `len(deals)`
lines, the k-th (1-based) being "k. [title](url) *(votes votes)*" of the k-th
deal, in input order. -/
theorem table_mode_payload (w : World) (deals : List Deal) (h : deals ≠ []) :
    ∃ e lines,
      postedPayloads (FormatAndPostToDiscord w deals true).trace =
        [{ Content := "", Embeds := [e] }] ∧
      e.Title =
        "🔥 " ++ (deals.head h).Category ++ " Deals (" ++ fmtInt deals.length ++ " found)" ∧
      e.Description = "\n**🔗 Links:**\n" ++ String.join lines ∧
      lines.length = deals.length ∧
      ∀ k (hk : k < deals.length),
        lines[k]? =
          some (fmtInt ((k : Int) + 1) ++ ". [" ++ (deals.get ⟨k, hk⟩).Title ++ "](" ++
            (deals.get ⟨k, hk⟩).URL ++ ") *(" ++ fmtInt (deals.get ⟨k, hk⟩).Votes ++
            " votes)*\n") := by
  cases deals with
  | nil => exact absurd rfl h
  | cons d ds =>
    refine ⟨{ Title := "🔥 " ++ d.Category ++ " Deals (" ++ fmtInt (d :: ds).length ++ " found)"
              URL := ""
              Description := "" ++ linksLoop 0 (d :: ds) "\n**🔗 Links:**\n"
              Color := 0x00A86B
              Fields := []
              Footer := some { Text := "OzBargain Deal Alert" } },
      numberedLines 0 (d :: ds), ?_, ?_, ?_, numberedLines_length _ 0, ?_⟩
    · rw [FormatAndPostToDiscord_cons, postedPayloads_deliver]
      rfl
    · rfl
    · simp only [linksLoop_eq, String.empty_append]
    · intro k hk
      have := numberedLines_get (d :: ds) 0 k hk
      simpa using this

theorem table_mode_payload_witness :
    boundaryDeals ≠ [] ∧
    ∃ e lines,
      postedPayloads (FormatAndPostToDiscord quietWorld boundaryDeals true).trace =
        [{ Content := "", Embeds := [e] }] ∧
      e.Title =
        "🔥 " ++ (boundaryDeals.head (by decide)).Category ++ " Deals (" ++
          fmtInt boundaryDeals.length ++ " found)" ∧
      e.Description = "\n**🔗 Links:**\n" ++ String.join lines ∧
      lines.length = boundaryDeals.length ∧
      ∀ k (hk : k < boundaryDeals.length),
        lines[k]? =
          some (fmtInt ((k : Int) + 1) ++ ". [" ++ (boundaryDeals.get ⟨k, hk⟩).Title ++ "](" ++
            (boundaryDeals.get ⟨k, hk⟩).URL ++ ") *(" ++
            fmtInt (boundaryDeals.get ⟨k, hk⟩).Votes ++ " votes)*\n") :=
  ⟨by decide, table_mode_payload quietWorld boundaryDeals (by decide)⟩

/-- A concrete table-mode run: three deals give one embed whose description
lists the three, numbered 1 to 3. -/
theorem table_mode_three_deals :
    postedPayloads (FormatAndPostToDiscord quietWorld (boundaryDeals.take 3) true).trace =
      [{ Content := ""
         Embeds :=
           [{ Title := "🔥 Computing Top Deals Deals (3 found)"
              URL := ""
              Description :=
                "\n**🔗 Links:**\n" ++
                "1. [Deal A](https://www.ozbargain.com.au/node/1) *(99 votes)*\n" ++
                "2. [Deal B](https://www.ozbargain.com.au/node/2) *(100 votes)*\n" ++
                "3. [Deal C](https://www.ozbargain.com.au/node/3) *(199 votes)*\n"
              Color := 0x00A86B
              Fields := []
              Footer := some { Text := "OzBargain Deal Alert" } }] }] := by
  rfl

theorem detailPayload_embeds (deals : List Deal) :
    (detailPayload deals).Embeds = deals.map (fun d =>
        ({ Title := d.Title
           URL := d.URL
           Description := ""
           Color := voteColor d.Votes
           Fields :=
             [ { Name := "👍 Votes", Value := fmtInt d.Votes, Inline := true },
               { Name := "🕒 Posted", Value := d.Timestamp, Inline := true } ]
           Footer := some { Text := "OzBargain Deal Alert - " ++ d.Category } } :
          DiscordEmbed)) := by
  simp [detailPayload, foldl_detailStep]

theorem detailPayload_get (deals : List Deal) (k : Nat) (hk : k < deals.length) :
    (detailPayload deals).Embeds[k]? = some
        ({ Title := (deals.get ⟨k, hk⟩).Title
           URL := (deals.get ⟨k, hk⟩).URL
           Description := ""
           Color := voteColor (deals.get ⟨k, hk⟩).Votes
           Fields :=
             [ { Name := "👍 Votes", Value := fmtInt (deals.get ⟨k, hk⟩).Votes, Inline := true },
               { Name := "🕒 Posted", Value := (deals.get ⟨k, hk⟩).Timestamp, Inline := true } ]
           Footer := some { Text := "OzBargain Deal Alert - " ++ (deals.get ⟨k, hk⟩).Category } } :
          DiscordEmbed) := by
  rw [detailPayload_embeds, List.getElem?_map, List.getElem?_eq_getElem hk]
  rfl

theorem detail_posted (w : World) (deals : List Deal) (h : deals ≠ []) :
    postedPayloads (FormatAndPostToDiscord w deals false).trace = [detailPayload deals] := by
  cases deals with
  | nil => exact absurd rfl h
  | cons d ds =>
    rw [FormatAndPostToDiscord_cons, postedPayloads_deliver]
    rfl

/-- C6: in detail mode the colour of the k-th embed is decided by the k-th
deal's vote count `v` alone: `v >= 200` gives 0x00FF00, `100 <= v < 200` gives
0xFFA500, `v < 100` gives 0xFF0000. -/
theorem detail_mode_colors (w : World) (deals : List Deal) (h : deals ≠ []) :
    ∃ p, postedPayloads (FormatAndPostToDiscord w deals false).trace = [p] ∧
      p.Embeds.length = deals.length ∧
      ∀ k (hk : k < deals.length), ∃ e, p.Embeds[k]? = some e ∧
        (200 ≤ (deals.get ⟨k, hk⟩).Votes → e.Color = 0x00FF00) ∧
        (100 ≤ (deals.get ⟨k, hk⟩).Votes → (deals.get ⟨k, hk⟩).Votes < 200 →
          e.Color = 0xFFA500) ∧
        ((deals.get ⟨k, hk⟩).Votes < 100 → e.Color = 0xFF0000) := by
  refine ⟨detailPayload deals, detail_posted w deals h, ?_, ?_⟩
  · simp [detailPayload_embeds]
  · intro k hk
    refine ⟨_, detailPayload_get deals k hk, ?_, ?_, ?_⟩
    · intro hv
      simp only [voteColor, List.get_eq_getElem] at hv ⊢
      rw [if_pos hv]
    · intro h1 h2
      simp only [voteColor, List.get_eq_getElem] at h1 h2 ⊢
      rw [if_neg (by omega), if_pos h1]
    · intro hv
      simp only [voteColor, List.get_eq_getElem] at hv ⊢
      rw [if_neg (by omega), if_neg (by omega)]

/-- The boundary cases of C6 on a concrete run: votes 99, 100, 199, 200 give
the low, medium, medium and high colour. -/
theorem detail_mode_colors_witness :
    boundaryDeals ≠ [] ∧
    (postedPayloads (FormatAndPostToDiscord quietWorld boundaryDeals false).trace).map
      (fun p => p.Embeds.map (fun e => e.Color)) = [[0xFF0000, 0xFFA500, 0xFFA500, 0x00FF00]] ∧
    ∃ p, postedPayloads (FormatAndPostToDiscord quietWorld boundaryDeals false).trace = [p] ∧
      p.Embeds.length = boundaryDeals.length ∧
      ∀ k (hk : k < boundaryDeals.length), ∃ e, p.Embeds[k]? = some e ∧
        (200 ≤ (boundaryDeals.get ⟨k, hk⟩).Votes → e.Color = 0x00FF00) ∧
        (100 ≤ (boundaryDeals.get ⟨k, hk⟩).Votes → (boundaryDeals.get ⟨k, hk⟩).Votes < 200 →
          e.Color = 0xFFA500) ∧
        ((boundaryDeals.get ⟨k, hk⟩).Votes < 100 → e.Color = 0xFF0000) :=
  ⟨by decide, by rfl, detail_mode_colors quietWorld boundaryDeals (by decide)⟩

/-- C7: for a non-empty list of deals, detail mode posts one payload with
exactly `len(deals)` embeds, in input order; the k-th has the k-th deal's title
and url, exactly two fields (the vote count in decimal, which `strconv.Atoi`
reads back as the count, and the timestamp string unchanged), and the footer
"OzBargain Deal Alert - {Category}". -/
theorem detail_mode_payload (w : World) (deals : List Deal) (h : deals ≠ []) :
    ∃ p, postedPayloads (FormatAndPostToDiscord w deals false).trace = [p] ∧
      p.Embeds.length = deals.length ∧
      ∀ k (hk : k < deals.length), ∃ e, p.Embeds[k]? = some e ∧
        e.Title = (deals.get ⟨k, hk⟩).Title ∧
        e.URL = (deals.get ⟨k, hk⟩).URL ∧
        e.Fields =
          [ { Name := "👍 Votes", Value := fmtInt (deals.get ⟨k, hk⟩).Votes, Inline := true },
            { Name := "🕒 Posted", Value := (deals.get ⟨k, hk⟩).Timestamp, Inline := true } ] ∧
        (-(2 : Int) ^ 63 ≤ (deals.get ⟨k, hk⟩).Votes → (deals.get ⟨k, hk⟩).Votes < 2 ^ 63 →
          Atoi (fmtInt (deals.get ⟨k, hk⟩).Votes) = ((deals.get ⟨k, hk⟩).Votes, none)) ∧
        e.Footer = some { Text := "OzBargain Deal Alert - " ++ (deals.get ⟨k, hk⟩).Category } := by
  refine ⟨detailPayload deals, detail_posted w deals h, ?_, ?_⟩
  · simp [detailPayload_embeds]
  · intro k hk
    exact ⟨_, detailPayload_get deals k hk, rfl, rfl, rfl, Atoi_fmtInt _, rfl⟩

theorem detail_mode_payload_witness :
    boundaryDeals ≠ [] ∧
    (postedPayloads (FormatAndPostToDiscord quietWorld (boundaryDeals.take 1) false).trace) =
      [{ Content := ""
         Embeds :=
           [{ Title := "Deal A"
              URL := "https://www.ozbargain.com.au/node/1"
              Description := ""
              Color := 0xFF0000
              Fields :=
                [ { Name := "👍 Votes", Value := "99", Inline := true },
                  { Name := "🕒 Posted", Value := "1 h", Inline := true } ]
              Footer := some { Text := "OzBargain Deal Alert - Computing Top Deals" } }] }] ∧
    ∃ p, postedPayloads (FormatAndPostToDiscord quietWorld boundaryDeals false).trace = [p] ∧
      p.Embeds.length = boundaryDeals.length ∧
      ∀ k (hk : k < boundaryDeals.length), ∃ e, p.Embeds[k]? = some e ∧
        e.Title = (boundaryDeals.get ⟨k, hk⟩).Title ∧
        e.URL = (boundaryDeals.get ⟨k, hk⟩).URL ∧
        e.Fields =
          [ { Name := "👍 Votes", Value := fmtInt (boundaryDeals.get ⟨k, hk⟩).Votes,
              Inline := true },
            { Name := "🕒 Posted", Value := (boundaryDeals.get ⟨k, hk⟩).Timestamp,
              Inline := true } ] ∧
        (-(2 : Int) ^ 63 ≤ (boundaryDeals.get ⟨k, hk⟩).Votes →
          (boundaryDeals.get ⟨k, hk⟩).Votes < 2 ^ 63 →
          Atoi (fmtInt (boundaryDeals.get ⟨k, hk⟩).Votes) =
            ((boundaryDeals.get ⟨k, hk⟩).Votes, none)) ∧
        e.Footer =
          some { Text := "OzBargain Deal Alert - " ++ (boundaryDeals.get ⟨k, hk⟩).Category } :=
  ⟨by decide, by rfl, detail_mode_payload quietWorld boundaryDeals (by decide)⟩

/-- C9: with an empty deal list `FormatAndPostToDiscord` issues no outbound
post, in either mode; with a non-empty list it issues exactly one. -/
theorem outbound_posts_count :
    (∀ (w : World) (asTable : Bool),
      (FormatAndPostToDiscord w [] asTable).trace.filter Event.isPost = []) ∧
    (∀ (w : World) (deals : List Deal) (asTable : Bool), deals ≠ [] →
      ((FormatAndPostToDiscord w deals asTable).trace.filter Event.isPost).length = 1) := by
  constructor
  · intro w asTable
    rfl
  · intro w deals asTable h
    cases deals with
    | nil => exact absurd rfl h
    | cons d ds =>
      rw [FormatAndPostToDiscord_cons]
      obtain ⟨line, hl⟩ := deliver_shape w (w.getenv "DISCORD_WEBHOOK_URL")
        (if asTable then tablePayload (d :: ds) d else detailPayload (d :: ds)) (d :: ds).length
      simp only [hl]
      rfl

theorem head_append (a b : String) (c : Char) (h : a.data.head? = some c) :
    (a ++ b).data.head? = some c := by
  rw [String.data_append]
  cases ha : a.data with
  | nil => rw [ha] at h; cases h
  | cons x xs => rw [ha] at h; simpa using h

theorem ne_of_head_ne {a b : String} {c d : Char} (ha : a.data.head? = some c)
    (hb : b.data.head? = some d) (hcd : c ≠ d) : a ≠ b := by
  intro h
  rw [h, hb] at ha
  exact hcd (Option.some.inj ha).symm

theorem success_line_head (n : Int) :
    ("Successfully posted " ++ fmtInt n ++ " deals to Discord").data.head? = some 'S' :=
  head_append _ _ _ (head_append _ _ _ (by decide))

theorem deliver_post_error (w : World) (url : String) (p : DiscordWebhookPayload) (n : Nat)
    (err : String) (h : w.httpPost url "application/json" p = .error err) :
    deliver w url p n =
      [.post url "application/json" p, .log ("Error posting to Discord: " ++ err)] := by
  simp [deliver, h]

theorem deliver_read_error (w : World) (url : String) (p : DiscordWebhookPayload) (n : Nat)
    (resp : HttpResponse) (err : String) (h : w.httpPost url "application/json" p = .ok resp)
    (hr : resp.ReadErr = some err) :
    deliver w url p n =
      [.post url "application/json" p, .log ("Error reading response body: " ++ err)] := by
  simp [deliver, h, hr]

theorem deliver_other_status (w : World) (url : String) (p : DiscordWebhookPayload) (n : Nat)
    (resp : HttpResponse) (h : w.httpPost url "application/json" p = .ok resp)
    (hr : resp.ReadErr = none) (hs : resp.StatusCode ≠ 204) :
    deliver w url p n =
      [.post url "application/json" p,
        .log ("Discord webhook returned status " ++ fmtInt resp.StatusCode ++ ": " ++
          resp.Body)] := by
  simp [deliver, h, hr, hs]

theorem deliver_no_content (w : World) (url : String) (p : DiscordWebhookPayload) (n : Nat)
    (resp : HttpResponse) (h : w.httpPost url "application/json" p = .ok resp)
    (hr : resp.ReadErr = none) (hs : resp.StatusCode = 204) :
    deliver w url p n =
      [.post url "application/json" p,
        .log ("Successfully posted " ++ fmtInt n ++ " deals to Discord")] := by
  simp [deliver, h, hr, hs]

theorem FormatAndPostToDiscord_panic (w : World) (deals : List Deal) (asTable : Bool) :
    (FormatAndPostToDiscord w deals asTable).panic = none := by
  cases deals with
  | nil => rfl
  | cons d ds => rw [FormatAndPostToDiscord_cons]

/-- C10: no call of `FormatAndPostToDiscord` ends in a panic or hands an error
to its caller, and a call with deals posts once and logs one line about the
delivery: the success line exactly when the endpoint answered with status 204
and a readable body; for every other status `s` (200 included) the line
"Discord webhook returned status s: body"; for a transport error or a body-read
error the corresponding error line. -/
theorem delivery_report (w : World) (deals : List Deal) (asTable : Bool) :
    (FormatAndPostToDiscord w deals asTable).panic = none ∧
    (deals ≠ [] → ∃ url payload line,
      (FormatAndPostToDiscord w deals asTable).trace =
        [.post url "application/json" payload, .log line] ∧
      (∀ err, w.httpPost url "application/json" payload = .error err →
        line = "Error posting to Discord: " ++ err) ∧
      (∀ resp err, w.httpPost url "application/json" payload = .ok resp →
        resp.ReadErr = some err → line = "Error reading response body: " ++ err) ∧
      (∀ resp, w.httpPost url "application/json" payload = .ok resp → resp.ReadErr = none →
        (resp.StatusCode ≠ 204 →
          line = "Discord webhook returned status " ++ fmtInt resp.StatusCode ++ ": " ++
            resp.Body) ∧
        (resp.StatusCode = 204 →
          line = "Successfully posted " ++ fmtInt deals.length ++ " deals to Discord")) ∧
      (line = "Successfully posted " ++ fmtInt deals.length ++ " deals to Discord" ↔
        ∃ resp, w.httpPost url "application/json" payload = .ok resp ∧
          resp.ReadErr = none ∧ resp.StatusCode = 204)) := by
  refine ⟨FormatAndPostToDiscord_panic w deals asTable, ?_⟩
  intro hne
  cases deals with
  | nil => exact absurd rfl hne
  | cons d ds =>
    rw [FormatAndPostToDiscord_cons]
    generalize hp : (if asTable then tablePayload (d :: ds) d else detailPayload (d :: ds)) = p
    generalize w.getenv "DISCORD_WEBHOOK_URL" = url
    refine ⟨url, p, ?_⟩
    cases hpost : w.httpPost url "application/json" p with
    | error err =>
      refine ⟨_, deliver_post_error w url p _ err hpost, ?_, ?_, ?_, ?_⟩
      · intro e he; cases he; rfl
      · intro resp e he; cases he
      · intro resp he; cases he
      · constructor
        · intro hl
          exact absurd hl (ne_of_head_ne (head_append _ _ 'E' (by decide))
            (success_line_head _) (by decide))
        · rintro ⟨resp, he, _⟩; cases he
    | ok resp =>
      cases hr : resp.ReadErr with
      | some rerr =>
        refine ⟨_, deliver_read_error w url p _ resp rerr hpost hr, ?_, ?_, ?_, ?_⟩
        · intro e he; cases he
        · intro resp2 e he hre
          cases he
          rw [hr] at hre
          cases hre
          rfl
        · intro resp2 he hre
          cases he
          rw [hr] at hre
          cases hre
        · constructor
          · intro hl
            exact absurd hl (ne_of_head_ne (head_append _ _ 'E' (by decide))
              (success_line_head _) (by decide))
          · rintro ⟨resp2, he, hre, _⟩
            cases he
            rw [hr] at hre
            cases hre
      | none =>
        by_cases hs : resp.StatusCode = 204
        · refine ⟨_, deliver_no_content w url p _ resp hpost hr hs, ?_, ?_, ?_, ?_⟩
          · intro e he; cases he
          · intro resp2 e he hre
            cases he
            rw [hr] at hre
            cases hre
          · intro resp2 he _
            cases he
            exact ⟨fun h => absurd hs h, fun _ => rfl⟩
          · exact ⟨fun _ => ⟨resp, rfl, hr, hs⟩, fun _ => rfl⟩
        · refine ⟨_, deliver_other_status w url p _ resp hpost hr hs, ?_, ?_, ?_, ?_⟩
          · intro e he; cases he
          · intro resp2 e he hre
            cases he
            rw [hr] at hre
            cases hre
          · intro resp2 he _
            cases he
            exact ⟨fun _ => rfl, fun h => absurd h hs⟩
          · constructor
            · intro hl
              exact absurd hl (ne_of_head_ne
                (head_append _ _ 'D' (head_append _ _ 'D' (head_append _ _ 'D' (by decide))))
                (success_line_head _) (by decide))
            · rintro ⟨resp2, he, _, hs2⟩
              cases he
              exact absurd hs2 hs

/-- Two concrete deliveries for C10: the endpoint answering 204 gives the
success line, the endpoint answering 200 gives the failure line with the status
and the body; neither run panics. -/
theorem delivery_report_runs :
    logLines (FormatAndPostToDiscord quietWorld boundaryDeals false).trace =
      ["Successfully posted 4 deals to Discord"] ∧
    (FormatAndPostToDiscord quietWorld boundaryDeals false).panic = none ∧
    logLines (FormatAndPostToDiscord okStatusWorld boundaryDeals true).trace =
      ["Discord webhook returned status 200: ok"] ∧
    (FormatAndPostToDiscord okStatusWorld boundaryDeals true).panic = none :=
  ⟨by rfl, (delivery_report quietWorld boundaryDeals false).1, by rfl,
    (delivery_report okStatusWorld boundaryDeals true).1⟩

/-! ## handlers/handlers.go: the scrape cycle -/

/-- C8 (counterexample): when the Computing feed cannot be fetched, or its body
cannot be read, the cycle ends there: the Electronics feed is never fetched and
nothing is posted, in `ScrapeTopDeals` and in `ScrapeNewDeals`. -/
theorem scrape_first_feed_failure_ends_cycle :
    (ScrapeTopDeals computingDownWorld).trace =
      [.log "Scraping top deals...", .get ComputingTopDealsURL,
        .log "Error scraping top deals: connection refused"] ∧
    (ScrapeTopDeals computingDownWorld).trace.any (Event.isGetOf ElectronicsTopDealsURL) = false ∧
    (ScrapeNewDeals computingDownWorld).trace =
      [.log "Scraping new deals...", .get ComputingNewDealsURL,
        .log "Error scraping new deals: connection refused"] ∧
    (ScrapeNewDeals computingDownWorld).trace.any (Event.isGetOf ElectronicsNewDealsURL) = false ∧
    (ScrapeTopDeals computingUnreadableWorld).trace =
      [.log "Scraping top deals...", .get ComputingTopDealsURL,
        .log "Error parsing deals: unexpected EOF"] ∧
    (ScrapeNewDeals computingUnreadableWorld).trace =
      [.log "Scraping new deals...", .get ComputingNewDealsURL,
        .log "Error parsing deals: unexpected EOF"] := by
  refine ⟨by rfl, by rfl, by rfl, by rfl, by rfl, by rfl⟩

/-- C8 (amended): in `ScrapeTopDeals`, and likewise in `ScrapeNewDeals`, a fetch
or parse failure on the Computing feed (the first) is logged and ends the
cycle, so the Electronics feed is not fetched; once the Computing feed has been
fetched and parsed, its deals are passed to the notifier and the Electronics
feed is fetched next, whatever then happens to the Electronics feed. -/
theorem scrape_cycle_failures (w : World) :
    ((∀ err, w.httpGet ComputingTopDealsURL = .error err →
        (ScrapeTopDeals w).trace =
          [.log "Scraping top deals...", .get ComputingTopDealsURL,
            .log ("Error scraping top deals: " ++ err)]) ∧
     (∀ resp err, w.httpGet ComputingTopDealsURL = .ok resp →
        (ParseDeals resp "Computing Top Deals").2 = some err →
        (ScrapeTopDeals w).trace =
          [.log "Scraping top deals...", .get ComputingTopDealsURL,
            .log ("Error parsing deals: " ++ err)]) ∧
     (∀ resp deals, w.httpGet ComputingTopDealsURL = .ok resp →
        ParseDeals resp "Computing Top Deals" = (deals, none) →
        ∃ rest, (ScrapeTopDeals w).trace =
          [.log "Scraping top deals...", .get ComputingTopDealsURL,
            .log ("Found " ++ fmtInt deals.length ++ " deals")] ++
          (FormatAndPostToDiscord w deals false).trace ++
          .get ElectronicsTopDealsURL :: rest)) ∧
    ((∀ err, w.httpGet ComputingNewDealsURL = .error err →
        (ScrapeNewDeals w).trace =
          [.log "Scraping new deals...", .get ComputingNewDealsURL,
            .log ("Error scraping new deals: " ++ err)]) ∧
     (∀ resp err, w.httpGet ComputingNewDealsURL = .ok resp →
        (ParseDeals resp "Computing New Deals").2 = some err →
        (ScrapeNewDeals w).trace =
          [.log "Scraping new deals...", .get ComputingNewDealsURL,
            .log ("Error parsing deals: " ++ err)]) ∧
     (∀ resp deals, w.httpGet ComputingNewDealsURL = .ok resp →
        ParseDeals resp "Computing New Deals" = (deals, none) →
        ∃ rest, (ScrapeNewDeals w).trace =
          [.log "Scraping new deals...", .get ComputingNewDealsURL,
            .log ("Found " ++ fmtInt deals.length ++ " deals")] ++
          (FormatAndPostToDiscord w deals true).trace ++
          .get ElectronicsNewDealsURL :: rest)) := by
  refine ⟨⟨?_, ?_, ?_⟩, ⟨?_, ?_, ?_⟩⟩
  · intro err h
    simp [ScrapeTopDeals, h]
  · intro resp err h hp
    cases hpd : ParseDeals resp "Computing Top Deals" with
    | mk ds e =>
      rw [hpd] at hp
      simp only at hp
      subst hp
      simp [ScrapeTopDeals, h, hpd]
  · intro resp deals h hp
    simp only [ScrapeTopDeals, h, hp, FormatAndPostToDiscord_panic]
    cases w.httpGet ElectronicsTopDealsURL with
    | error err => exact ⟨[.log ("Error scraping top deals: " ++ err)], by simp⟩
    | ok elecResp =>
      cases hpd : ParseDeals elecResp "Electronics Top Deals" with
      | mk ds e =>
        cases e with
        | some perr => exact ⟨[.log ("Error parsing deals: " ++ perr)], by simp [hpd]⟩
        | none =>
          exact ⟨.log ("Found " ++ fmtInt ds.length ++ " deals") ::
            (FormatAndPostToDiscord w ds false).trace, by simp [hpd]⟩
  · intro err h
    simp [ScrapeNewDeals, h]
  · intro resp err h hp
    cases hpd : ParseDeals resp "Computing New Deals" with
    | mk ds e =>
      rw [hpd] at hp
      simp only at hp
      subst hp
      simp [ScrapeNewDeals, h, hpd]
  · intro resp deals h hp
    simp only [ScrapeNewDeals, h, hp, FormatAndPostToDiscord_panic]
    cases w.httpGet ElectronicsNewDealsURL with
    | error err => exact ⟨[.log ("Error scraping new deals: " ++ err)], by simp⟩
    | ok elecResp =>
      cases hpd : ParseDeals elecResp "Electronics New Deals" with
      | mk ds e =>
        cases e with
        | some perr => exact ⟨[.log ("Error parsing deals: " ++ perr)], by simp [hpd]⟩
        | none =>
          exact ⟨.log ("Found " ++ fmtInt ds.length ++ " deals") ::
            (FormatAndPostToDiscord w ds true).trace, by simp [hpd]⟩

/-- A concrete cycle for C8: with the Electronics feed down, the Computing feed
of `ScrapeTopDeals` is fetched, parsed and posted, then the Electronics fetch
fails and is logged. -/
theorem scrape_cycle_failures_witness :
    ∃ rest, (ScrapeTopDeals electronicsDownWorld).trace =
      [.log "Scraping top deals...", .get ComputingTopDealsURL,
        .log ("Found " ++ fmtInt (1 : Nat) ++ " deals")] ++
      (FormatAndPostToDiscord electronicsDownWorld
        [⟨"Deal A", "https://www.ozbargain.com.au/node/1", "1 h", 120, "Computing Top Deals"⟩]
        false).trace ++
      .get ElectronicsTopDealsURL :: rest :=
  (scrape_cycle_failures electronicsDownWorld).1.2.2
    (.document [⟨[⟨"Deal A", some "/node/1"⟩], ["1 h"], ["+120"]⟩])
    [⟨"Deal A", "https://www.ozbargain.com.au/node/1", "1 h", 120, "Computing Top Deals"⟩]
    (by rfl) (by decide)

end OzBargain
